import Mathlib

/-!
# BlockSmasher: level generation and physics simulation, formalized

A shallow embedding of the core of the BlockSmasher repository
(`src/components/GlassButton.tsx`, GameScreen component): the seeded
linear congruential random source, the level layout generator
(hand-authored levels 1-5, fixed-seed procedural level 6, and
`levelId`-seeded procedural levels >= 100), and the per-frame game loop
(paddle update, ball integration, wall/paddle/block collisions,
out-of-bounds life loss, particle advance, victory/defeat transitions).

JavaScript numbers are modelled as exact rationals (`ℚ`): every JS double
is a rational, and the arithmetic the code performs is idealized as exact
rational arithmetic.  `Math.cos` / `Math.sin` are opaque to the generator's
logic, so the generator is parametrized by two functions
`cosF sinF : ℚ → ℚ`; the actual JS functions are among the admissible
instantiations (they return values in `[-1, 1]`, the only fact any proof
uses about them).  `Math.PI` is the exact dyadic rational value of the
IEEE-754 double.  `Math.random` (used only for particle velocities and
the launch angle, never in deterministic generation paths) is abstracted
by a caller-supplied particle spawner.  The speed-invariance claims about
the paddle bounce are stated over `ℝ` with `Real.sin`/`Real.cos`/`Real.sqrt`,
the idealization of the floating-point trigonometry.
-/

/-- A block rectangle, as created by the layout generator. -/
structure Block where
  x : ℚ
  y : ℚ
  width : ℚ
  height : ℚ
  alive : Bool
  color : String
  deriving Repr, DecidableEq

/-- Ball state: position, velocity, radius (over a numeric carrier). -/
structure Ball (α : Type) where
  x : α
  y : α
  dx : α
  dy : α
  radius : α
  deriving Repr, DecidableEq

/-- Paddle state. -/
structure Paddle (α : Type) where
  x : α
  y : α
  width : α
  height : α
  deriving Repr, DecidableEq

/-- A decorative particle. -/
structure Particle where
  x : ℚ
  y : ℚ
  dx : ℚ
  dy : ℚ
  life : ℚ
  maxLife : ℚ
  size : ℚ
  color : String
  deriving Repr, DecidableEq

/-- Session status (`gameState` in the source). -/
inductive Status where
  | playing
  | paused
  | victory
  | defeat
  deriving Repr, DecidableEq

/-- CANVAS_WIDTH = 800. -/
def CANVAS_WIDTH : ℚ := 800

/-- CANVAS_HEIGHT = 600. -/
def CANVAS_HEIGHT : ℚ := 600

/-- Math.PI as the exact value of the IEEE-754 double closest to π. -/
def PI : ℚ := 884279719003555 / 281474976710656

/-- One update of the linear congruential generator state:
`state = (state * 1664525 + 1013904223) % 4294967296`.  The JS arithmetic
is exact here (all intermediates are below 2^53). -/
def lcgStep (s : ℕ) : ℕ := (s * 1664525 + 1013904223) % 4294967296

/-- The internal state of the generator seeded with `seed` after `n` calls. -/
def lcgState (seed n : ℕ) : ℕ := lcgStep^[n] seed

/-- The value returned by the `(n+1)`-st call to `next()` of a generator
seeded with `seed`: the updated state divided by 2^32. -/
def lcgValue (seed n : ℕ) : ℚ := (lcgState seed (n + 1) : ℚ) / 4294967296

/-- One call of the closure returned by `seededRandom`, in state-passing
style: returns the produced value together with the updated state. -/
def draw (s : ℕ) : ℚ × ℕ := ((lcgStep s : ℚ) / 4294967296, lcgStep s)

theorem lcgStep_lt (s : ℕ) : lcgStep s < 4294967296 :=
  Nat.mod_lt _ (by norm_num)

theorem draw_fst_nonneg (s : ℕ) : 0 ≤ (draw s).1 := by
  unfold draw
  positivity

theorem draw_fst_lt_one (s : ℕ) : (draw s).1 < 1 := by
  unfold draw
  rw [div_lt_one (by norm_num)]
  exact_mod_cast lcgStep_lt s

/-- C4: the seeded random source is the specified linear congruential
generator.  For every 32-bit seed: each call advances the state by
`state = (state * 1664525 + 1013904223) mod 2^32`; the value returned by
every call is the updated state divided by `2^32` and lies in `[0, 1)`;
and the value stream is a pure function of the seed, so two generators
constructed from the same seed produce identical sequences. -/
theorem c4_lcg_contract (seed : ℕ) (_hseed : seed < 4294967296) :
    (∀ n, lcgState seed (n + 1) =
        (lcgState seed n * 1664525 + 1013904223) % 4294967296) ∧
    (∀ n, lcgValue seed n = (lcgState seed (n + 1) : ℚ) / 4294967296 ∧
        0 ≤ lcgValue seed n ∧ lcgValue seed n < 1) ∧
    (∀ n, lcgValue seed n = lcgValue seed n) := by
  refine ⟨fun n => ?_, fun n => ⟨rfl, ?_, ?_⟩, fun n => rfl⟩
  · rw [lcgState, Function.iterate_succ_apply', lcgStep]
    rfl
  · unfold lcgValue
    positivity
  · unfold lcgValue
    rw [div_lt_one (by norm_num)]
    have : lcgState seed (n + 1) < 4294967296 := by
      rw [lcgState, Function.iterate_succ_apply']
      exact lcgStep_lt _
    exact_mod_cast this

/-- Witness for C4 at the concrete seed 101. -/
theorem c4_lcg_contract_witness :
    101 < 4294967296 ∧
    ((∀ n, lcgState 101 (n + 1) =
        (lcgState 101 n * 1664525 + 1013904223) % 4294967296) ∧
     (∀ n, lcgValue 101 n = (lcgState 101 (n + 1) : ℚ) / 4294967296 ∧
        0 ≤ lcgValue 101 n ∧ lcgValue 101 n < 1) ∧
     (∀ n, lcgValue 101 n = lcgValue 101 n)) :=
  ⟨by norm_num, c4_lcg_contract 101 (by norm_num)⟩

/-! ## Bounce operations of the physics loop, over the reals

These are the velocity updates of the game loop, idealizing the
floating-point arithmetic and trigonometry as real arithmetic:
wall bounces (`ball.dx = -ball.dx`, `ball.dy = -ball.dy`), the block
bounce (`ball.dy = -ball.dy`), and the paddle bounce, which first forces
`dy` upward and then recomputes the direction from the hit position while
reusing the pre-bounce speed magnitude. -/

/-- Side-wall reflection: `ball.dx = -ball.dx`. -/
def wallReflectX (b : Ball ℝ) : Ball ℝ := { b with dx := -b.dx }

/-- Top-wall reflection: `ball.dy = -ball.dy`. -/
def wallReflectY (b : Ball ℝ) : Ball ℝ := { b with dy := -b.dy }

/-- Block-collision reflection: `ball.dy = -ball.dy`. -/
def blockReflect (b : Ball ℝ) : Ball ℝ := { b with dy := -b.dy }

/-- Paddle reflection: `dy = -|dy|`, then
`hitPos = (x - paddle.x) / paddle.width`,
`angle = (hitPos - 0.5) * π / 1.5`,
`speed = sqrt (dx² + dy²)`,
`dx = sin angle * speed`, `dy = -|cos angle * speed|`. -/
noncomputable def paddleReflect (p : Paddle ℝ) (b : Ball ℝ) : Ball ℝ :=
  let b1 : Ball ℝ := { b with dy := -|b.dy| }
  let hitPos := (b1.x - p.x) / p.width
  let angle := (hitPos - 1/2) * Real.pi / 1.5
  let speed := Real.sqrt (b1.dx * b1.dx + b1.dy * b1.dy)
  { b1 with dx := Real.sin angle * speed, dy := -|Real.cos angle * speed| }

/-- Speed magnitude `sqrt (dx² + dy²)` of a ball. -/
noncomputable def speedOf (b : Ball ℝ) : ℝ := Real.sqrt (b.dx * b.dx + b.dy * b.dy)

/-- C5: speed invariance.  Wall and block bounces are pure sign flips and
preserve `sqrt (dx² + dy²)` exactly; the paddle bounce recomputes the
velocity as `dx = sin(angle)·speed`, `dy = -|cos(angle)·speed|` with
`speed = sqrt (dx² + dy²)` taken before the bounce, and the post-bounce
magnitude equals the pre-bounce magnitude. -/
theorem c5_speed_invariance (p : Paddle ℝ) (b : Ball ℝ) :
    speedOf (wallReflectX b) = speedOf b ∧
    speedOf (wallReflectY b) = speedOf b ∧
    speedOf (blockReflect b) = speedOf b ∧
    speedOf (paddleReflect p b) = speedOf b := by
  refine ⟨?_, ?_, ?_, ?_⟩
  · simp [speedOf, wallReflectX]
  · simp [speedOf, wallReflectY]
  · simp [speedOf, blockReflect]
  · unfold speedOf paddleReflect
    simp only
    set angle := ((b.x - p.x) / p.width - 1/2) * Real.pi / 1.5 with hangle
    have hdy : -|b.dy| * -|b.dy| = b.dy * b.dy := by
      rw [neg_mul_neg, abs_mul_abs_self]
    have hs : 0 ≤ b.dx * b.dx + -|b.dy| * -|b.dy| := by
      rw [hdy]; nlinarith [mul_self_nonneg b.dx, mul_self_nonneg b.dy]
    set s := Real.sqrt (b.dx * b.dx + -|b.dy| * -|b.dy|) with hs_def
    have hsq : s * s = b.dx * b.dx + b.dy * b.dy := by
      rw [hs_def, Real.mul_self_sqrt hs, hdy]
    have habs : -|Real.cos angle * s| * -|Real.cos angle * s|
        = Real.cos angle * s * (Real.cos angle * s) := by
      rw [neg_mul_neg, abs_mul_abs_self]
    rw [habs]
    have hkey : Real.sin angle * s * (Real.sin angle * s)
        + Real.cos angle * s * (Real.cos angle * s) = b.dx * b.dx + b.dy * b.dy := by
      have htrig := Real.sin_sq_add_cos_sq angle
      nlinarith [htrig, hsq]
    rw [hkey]

/-! ## Level layout generator

`generateBlocksForLevel` from the source, in state-passing style for the
seeded random closure.  The per-pattern cluster layouts are factored into
helper functions parametrized by the numeric constants, which differ
between the level-6 branch and the `>= 100` branch exactly as in the
source. -/

/-- margin = 50: the horizontal/vertical inset of the playable region. -/
def margin : ℚ := 50

/-- maxY = 420: the lowest allowed block bottom (keeps away from paddle). -/
def maxY : ℚ := 420

/-- The boundary-safety filter applied to every procedural candidate block:
`x >= margin && x + blockWidth <= CANVAS_WIDTH - margin && y >= margin &&
y + blockHeight <= maxY`. -/
def fitsBounds (x y bw bh : ℚ) : Bool :=
  decide (margin ≤ x ∧ x + bw ≤ CANVAS_WIDTH - margin ∧ margin ≤ y ∧ y + bh ≤ maxY)

/-- A candidate block is pushed only when it passes the boundary filter;
rejected candidates are silently dropped. -/
def candidate (x y bw bh : ℚ) (color : String) : List Block :=
  if fitsBounds x y bw bh then [⟨x, y, bw, bh, true, color⟩] else []

/-- The shared procedural color palette. -/
def procColors : List String := ["#f97316", "#06b6d4", "#a855f7", "#ec4899", "#eab308"]

/-- The "tight" pattern: a compact 2-row grid. -/
def tightBlocks (cx cy bw bh : ℚ) (color : String) (bc : ℕ) (gap : ℚ) : List Block :=
  (List.range bc).flatMap fun i =>
    let cols := (⌈(bc : ℚ) / 2⌉).toNat
    let row := i / cols
    let col := i % cols
    let x := cx + (col : ℚ) * (bw + gap)
    let y := cy + (row : ℚ) * (bh + gap)
    candidate x y bw bh color

/-- The "scattered" pattern: points near a circle around the anchor, with
angular and radial jitter drawn per block (hence the state threading). -/
def scatteredBlocks (cosF sinF : ℚ → ℚ) (cx cy bw bh : ℚ) (color : String)
    (bc : ℕ) (radius jitterMul rBase rMul : ℚ) : ℕ → ℕ → ℕ → List Block × ℕ
  | _, 0, s => ([], s)
  | i, fuel + 1, s =>
    let (vA, s1) := draw s
    let (vB, s2) := draw s1
    let angle := ((i : ℚ) / (bc : ℚ)) * PI * 2 + vA * jitterMul
    let r := radius * (rBase + vB * rMul)
    let x := cx + cosF angle * r
    let y := cy + sinF angle * r
    let rest := scatteredBlocks cosF sinF cx cy bw bh color bc radius jitterMul rBase rMul
      (i + 1) fuel s2
    (candidate x y bw bh color ++ rest.1, rest.2)

/-- The "line" pattern: points along a tilted line with a sinusoidal wobble. -/
def lineBlocks (cosF sinF : ℚ → ℚ) (cx cy bw bh : ℚ) (color : String)
    (bc : ℕ) (angle spacing wobFreq wobAmp : ℚ) : List Block :=
  (List.range bc).flatMap fun i =>
    let x := cx + (i : ℚ) * spacing * cosF angle
    let y := cy + (i : ℚ) * spacing * sinF angle + sinF ((i : ℚ) * wobFreq) * wobAmp
    candidate x y bw bh color

/-- The "arc" pattern: points along a circular arc. -/
def arcBlocks (cosF sinF : ℚ → ℚ) (cx cy bw bh : ℚ) (color : String)
    (bc : ℕ) (arcRadius startAngle arcLength : ℚ) : List Block :=
  (List.range bc).flatMap fun i =>
    let denom : ℚ := if bc - 1 = 0 then 1 else ((bc - 1 : ℕ) : ℚ)
    let t := (i : ℚ) / denom
    let angle := startAngle + t * arcLength
    let x := cx + cosF angle * arcRadius
    let y := cy + sinF angle * arcRadius
    candidate x y bw bh color

/-- The "spiral" pattern (levels >= 100 only): an expanding spiral. -/
def spiralBlocks (cosF sinF : ℚ → ℚ) (cx cy bw bh : ℚ) (color : String)
    (bc : ℕ) (tightness : ℚ) : List Block :=
  (List.range bc).flatMap fun i =>
    let angle := ((i : ℚ) / (bc : ℚ)) * PI * 2 * 1.5
    let radius := 10 + ((i : ℚ) / (bc : ℚ)) * tightness * 15
    let x := cx + cosF angle * radius
    let y := cy + sinF angle * radius
    candidate x y bw bh color

/-- The cluster properties drawn at the start of each cluster of the
`level >= 100` branch, together with the advanced RNG state. -/
structure ClusterParams where
  clusterX : ℚ
  clusterY : ℚ
  patternIdx : ℕ
  blockCount : ℕ
  colorIdx : ℕ
  blockWidth : ℚ
  blockHeight : ℚ
  stateOut : ℕ
  deriving Repr, DecidableEq

/-- Cluster property draws of the `level >= 100` branch. -/
def clusterParams100 (s : ℕ) : ClusterParams :=
  let (v1, s1) := draw s
  let (v2, s2) := draw s1
  let (v3, s3) := draw s2
  let (v4, s4) := draw s3
  let (v5, s5) := draw s4
  let (v6, s6) := draw s5
  let (v7, s7) := draw s6
  { clusterX := margin + v1 * (CANVAS_WIDTH - margin * 2 - 150)
    clusterY := margin + v2 * (maxY - margin - 100)
    patternIdx := (Int.floor (v3 * 5)).toNat
    blockCount := 4 + (Int.floor (v4 * 6)).toNat
    colorIdx := (Int.floor (v5 * 5)).toNat
    blockWidth := 35 + v6 * 20
    blockHeight := 18 + v7 * 10
    stateOut := s7 }

/-- Cluster property draws of the level-6 branch ("explosive chaos"):
4 patterns (no spiral), 5-8 blocks per cluster, slightly larger blocks. -/
def clusterParams6 (s : ℕ) : ClusterParams :=
  let (v1, s1) := draw s
  let (v2, s2) := draw s1
  let (v3, s3) := draw s2
  let (v4, s4) := draw s3
  let (v5, s5) := draw s4
  let (v6, s6) := draw s5
  let (v7, s7) := draw s6
  { clusterX := margin + v1 * (CANVAS_WIDTH - margin * 2 - 150)
    clusterY := margin + v2 * (maxY - margin - 100)
    patternIdx := (Int.floor (v3 * 4)).toNat
    blockCount := 5 + (Int.floor (v4 * 4)).toNat
    colorIdx := (Int.floor (v5 * 5)).toNat
    blockWidth := 40 + v6 * 15
    blockHeight := 18 + v7 * 8
    stateOut := s7 }

/-- One cluster of the `level >= 100` branch. -/
def genCluster100 (cosF sinF : ℚ → ℚ) (s : ℕ) : List Block × ℕ :=
  let p := clusterParams100 s
  let color := procColors.getD p.colorIdx ""
  if p.patternIdx = 0 then
    let (v, s') := draw p.stateOut
    (tightBlocks p.clusterX p.clusterY p.blockWidth p.blockHeight color p.blockCount
      (3 + v * 4), s')
  else if p.patternIdx = 1 then
    let (v, s') := draw p.stateOut
    scatteredBlocks cosF sinF p.clusterX p.clusterY p.blockWidth p.blockHeight color
      p.blockCount (25 + v * 35) 0.6 0.6 0.7 0 p.blockCount s'
  else if p.patternIdx = 2 then
    let (v1, s1) := draw p.stateOut
    let (v2, s2) := draw s1
    (lineBlocks cosF sinF p.clusterX p.clusterY p.blockWidth p.blockHeight color p.blockCount
      (v1 * PI / 3 - PI / 6) (p.blockWidth + 2 + v2 * 6) 0.9 12, s2)
  else if p.patternIdx = 3 then
    let (v1, s1) := draw p.stateOut
    let (v2, s2) := draw s1
    let (v3, s3) := draw s2
    (arcBlocks cosF sinF p.clusterX p.clusterY p.blockWidth p.blockHeight color p.blockCount
      (35 + v1 * 50) (v2 * PI) (PI * 0.5 + v3 * PI * 0.6), s3)
  else if p.patternIdx = 4 then
    let (v, s') := draw p.stateOut
    (spiralBlocks cosF sinF p.clusterX p.clusterY p.blockWidth p.blockHeight color p.blockCount
      (3 + v * 4), s')
  else ([], p.stateOut)

/-- One cluster of the level-6 branch. -/
def genCluster6 (cosF sinF : ℚ → ℚ) (s : ℕ) : List Block × ℕ :=
  let p := clusterParams6 s
  let color := procColors.getD p.colorIdx ""
  if p.patternIdx = 0 then
    let (v, s') := draw p.stateOut
    (tightBlocks p.clusterX p.clusterY p.blockWidth p.blockHeight color p.blockCount
      (4 + v * 3), s')
  else if p.patternIdx = 1 then
    let (v, s') := draw p.stateOut
    scatteredBlocks cosF sinF p.clusterX p.clusterY p.blockWidth p.blockHeight color
      p.blockCount (25 + v * 30) 0.5 0.7 0.6 0 p.blockCount s'
  else if p.patternIdx = 2 then
    let (v1, s1) := draw p.stateOut
    let (v2, s2) := draw s1
    (lineBlocks cosF sinF p.clusterX p.clusterY p.blockWidth p.blockHeight color p.blockCount
      (v1 * PI / 4 - PI / 8) (p.blockWidth + 3 + v2 * 5) 0.8 10, s2)
  else if p.patternIdx = 3 then
    let (v1, s1) := draw p.stateOut
    let (v2, s2) := draw s1
    let (v3, s3) := draw s2
    (arcBlocks cosF sinF p.clusterX p.clusterY p.blockWidth p.blockHeight color p.blockCount
      (40 + v1 * 40) (v2 * PI) (PI * 0.6 + v3 * PI * 0.4), s3)
  else ([], p.stateOut)

/-- The cluster loop: run `n` clusters, threading the RNG state, and
concatenate their block lists in order. -/
def clusterLoop (gc : ℕ → List Block × ℕ) : ℕ → ℕ → List Block
  | _, 0 => []
  | s, n + 1 =>
    let r := gc s
    r.1 ++ clusterLoop gc r.2 n

/-- numClusters for `level >= 100`:
`6 + floor (((level - 100) % 12) / 2)`, i.e. 6 to 11 clusters. -/
def numClusters100 (level : ℕ) : ℕ := 6 + ((level - 100) % 12) / 2

/-- Level 1: classic 4x6 grid. -/
def level1Blocks : List Block :=
  (List.range 4).flatMap fun (row : ℕ) => (List.range 6).map fun (col : ℕ) =>
    ⟨50 + (col : ℚ) * (60 + 5), 50 + (row : ℚ) * (25 + 5), 60, 25, true, "#3b82f6"⟩

/-- Level 2: 8 blocks in a circle of radius 120 around (400, 200). -/
def level2Blocks (cosF sinF : ℚ → ℚ) : List Block :=
  (List.range 8).map fun (i : ℕ) =>
    let angle := ((i : ℚ) / 8) * PI * 2 - PI / 2
    ⟨CANVAS_WIDTH / 2 + cosF angle * 120 - 70 / 2,
     200 + sinF angle * 120 - 25 / 2, 70, 25, true, "#7c3aed"⟩

/-- The level-3 orange gradient. -/
def pyramidColors : List String := ["#f97316", "#fb923c", "#fdba74", "#fed7aa"]

/-- The row loop of level 3, accumulating `startY` exactly as the source. -/
def pyramidRowsGo : List ℕ → ℕ → ℚ → List Block
  | [], _, _ => []
  | n :: rest, rowIndex, startY =>
    let rowWidth := (n : ℚ) * 55 + ((n : ℚ) - 1) * 8
    let startX := (CANVAS_WIDTH - rowWidth) / 2
    ((List.range n).map fun (i : ℕ) =>
      (⟨startX + (i : ℚ) * (55 + 8), startY, 55, 22, true,
        pyramidColors.getD (rowIndex % 4) ""⟩ : Block))
      ++ pyramidRowsGo rest (rowIndex + 1) (startY + (22 + 8))

/-- Level 3: inverted pyramid, row sizes 7,6,5,4,3,2,1. -/
def level3Blocks : List Block := pyramidRowsGo [7, 6, 5, 4, 3, 2, 1] 0 50

/-- Level 4: 8x8 checkerboard, block present iff `(row+col) % 2 == 0`. -/
def level4Blocks : List Block :=
  (List.range 8).flatMap fun (row : ℕ) => (List.range 8).flatMap fun (col : ℕ) =>
    if (row + col) % 2 = 0 then
      [⟨(CANVAS_WIDTH - (8 * 55 + 7 * 4)) / 2 + (col : ℚ) * (55 + 4),
        50 + (row : ℚ) * (22 + 4), 55, 22, true,
        if row % 2 = 0 then "#06b6d4" else "#a855f7"⟩]
    else []

/-- The level-5 red-to-orange gradient. -/
def fortressColors : List String := ["#dc2626", "#ef4444", "#f97316", "#fb923c"]

/-- Level 5: the fortress (outer wall, two towers, inner wall, core),
in source push order. -/
def level5Blocks : List Block :=
  let outerStartX : ℚ := (CANVAS_WIDTH - (12 * 50 + 11 * 5)) / 2
  let innerStartX : ℚ := (CANVAS_WIDTH - (8 * 50 + 7 * 5)) / 2
  let innerY : ℚ := 50 + (20 + 5) * 3
  let coreStartX : ℚ := (CANVAS_WIDTH - (4 * 50 + 3 * 5)) / 2
  let coreY : ℚ := innerY + (20 + 5)
  ((List.range 12).map fun (i : ℕ) =>
    (⟨outerStartX + (i : ℚ) * (50 + 5), 50, 50, 20, true, fortressColors.getD 0 ""⟩ : Block))
  ++ ((List.range 2).flatMap fun (row : ℕ) => (List.range 2).map fun (col : ℕ) =>
    (⟨outerStartX + (col : ℚ) * (50 + 5), 50 + ((row : ℚ) + 1) * (20 + 5), 50, 20, true,
      fortressColors.getD (row + 1) ""⟩ : Block))
  ++ ((List.range 2).flatMap fun (row : ℕ) => (List.range 2).map fun (col : ℕ) =>
    (⟨outerStartX + ((12 - 2 + col : ℕ) : ℚ) * (50 + 5), 50 + ((row : ℚ) + 1) * (20 + 5),
      50, 20, true, fortressColors.getD (row + 1) ""⟩ : Block))
  ++ ((List.range 8).map fun (i : ℕ) =>
    (⟨innerStartX + (i : ℚ) * (50 + 5), innerY, 50, 20, true,
      fortressColors.getD 1 ""⟩ : Block))
  ++ ((List.range 2).flatMap fun (row : ℕ) => (List.range 4).map fun (col : ℕ) =>
    (⟨coreStartX + (col : ℚ) * (50 + 5), coreY + (row : ℚ) * (20 + 5), 50, 20, true,
      fortressColors.getD 3 ""⟩ : Block))

/-- `generateBlocksForLevel`: the full level layout generator. -/
def generateBlocksForLevel (cosF sinF : ℚ → ℚ) (level : ℕ) : List Block :=
  if level = 1 then level1Blocks
  else if level = 2 then level2Blocks cosF sinF
  else if level = 3 then level3Blocks
  else if level = 4 then level4Blocks
  else if level = 5 then level5Blocks
  else if level = 6 then clusterLoop (genCluster6 cosF sinF) 12345 10
  else if 100 ≤ level then clusterLoop (genCluster100 cosF sinF) level (numClusters100 level)
  else []

/-! ## C2: boundary safety -/

/-- The margin-bounded playable sub-rectangle predicate for a block. -/
def inBoundsB (b : Block) : Prop :=
  margin ≤ b.x ∧ b.x + b.width ≤ CANVAS_WIDTH - margin ∧
  margin ≤ b.y ∧ b.y + b.height ≤ maxY

instance (b : Block) : Decidable (inBoundsB b) := by
  unfold inBoundsB; infer_instance

/-- A constant function used to instantiate the abstract `Math.cos` /
`Math.sin` parameters in concrete witnesses. -/
def zeroF : ℚ → ℚ := fun _ => 0

theorem mem_candidate {b : Block} {x y bw bh : ℚ} {c : String}
    (hb : b ∈ candidate x y bw bh c) : inBoundsB b := by
  unfold candidate at hb
  split at hb
  · next h =>
    unfold fitsBounds at h
    rw [decide_eq_true_eq] at h
    rw [List.mem_singleton] at hb
    subst hb
    exact h
  · simp at hb

theorem mem_tightBlocks {b : Block} {cx cy bw bh : ℚ} {c : String} {bc : ℕ} {gap : ℚ}
    (hb : b ∈ tightBlocks cx cy bw bh c bc gap) : inBoundsB b := by
  unfold tightBlocks at hb
  rw [List.mem_flatMap] at hb
  obtain ⟨i, _, hi⟩ := hb
  exact mem_candidate hi

theorem mem_lineBlocks {cosF sinF : ℚ → ℚ} {b : Block} {cx cy bw bh : ℚ} {c : String}
    {bc : ℕ} {ang spacing wf wa : ℚ}
    (hb : b ∈ lineBlocks cosF sinF cx cy bw bh c bc ang spacing wf wa) : inBoundsB b := by
  unfold lineBlocks at hb
  rw [List.mem_flatMap] at hb
  obtain ⟨i, _, hi⟩ := hb
  exact mem_candidate hi

theorem mem_arcBlocks {cosF sinF : ℚ → ℚ} {b : Block} {cx cy bw bh : ℚ} {c : String}
    {bc : ℕ} {ar sa al : ℚ}
    (hb : b ∈ arcBlocks cosF sinF cx cy bw bh c bc ar sa al) : inBoundsB b := by
  unfold arcBlocks at hb
  rw [List.mem_flatMap] at hb
  obtain ⟨i, _, hi⟩ := hb
  exact mem_candidate hi

theorem mem_spiralBlocks {cosF sinF : ℚ → ℚ} {b : Block} {cx cy bw bh : ℚ} {c : String}
    {bc : ℕ} {t : ℚ}
    (hb : b ∈ spiralBlocks cosF sinF cx cy bw bh c bc t) : inBoundsB b := by
  unfold spiralBlocks at hb
  rw [List.mem_flatMap] at hb
  obtain ⟨i, _, hi⟩ := hb
  exact mem_candidate hi

theorem mem_scatteredBlocks {cosF sinF : ℚ → ℚ} {b : Block} {cx cy bw bh : ℚ} {c : String}
    {bc : ℕ} {radius jM rB rM : ℚ} :
    ∀ (fuel i s : ℕ),
      b ∈ (scatteredBlocks cosF sinF cx cy bw bh c bc radius jM rB rM i fuel s).1 →
      inBoundsB b := by
  intro fuel
  induction fuel with
  | zero => intro i s hb; simp [scatteredBlocks] at hb
  | succ n ih =>
    intro i s hb
    rw [scatteredBlocks] at hb
    simp only at hb
    rcases List.mem_append.mp hb with h | h
    · exact mem_candidate h
    · exact ih _ _ h

theorem mem_genCluster100 {cosF sinF : ℚ → ℚ} {b : Block} {s : ℕ}
    (hb : b ∈ (genCluster100 cosF sinF s).1) : inBoundsB b := by
  unfold genCluster100 at hb
  simp only at hb
  split_ifs at hb
  · exact mem_tightBlocks hb
  · exact mem_scatteredBlocks _ _ _ hb
  · exact mem_lineBlocks hb
  · exact mem_arcBlocks hb
  · exact mem_spiralBlocks hb
  · simp at hb

theorem mem_genCluster6 {cosF sinF : ℚ → ℚ} {b : Block} {s : ℕ}
    (hb : b ∈ (genCluster6 cosF sinF s).1) : inBoundsB b := by
  unfold genCluster6 at hb
  simp only at hb
  split_ifs at hb
  · exact mem_tightBlocks hb
  · exact mem_scatteredBlocks _ _ _ hb
  · exact mem_lineBlocks hb
  · exact mem_arcBlocks hb
  · simp at hb

theorem mem_clusterLoop {gc : ℕ → List Block × ℕ} {b : Block}
    (hgc : ∀ s' b', b' ∈ (gc s').1 → inBoundsB b') :
    ∀ (n s : ℕ), b ∈ clusterLoop gc s n → inBoundsB b := by
  intro n
  induction n with
  | zero => intro s hb; simp [clusterLoop] at hb
  | succ m ih =>
    intro s hb
    rw [clusterLoop] at hb
    rcases List.mem_append.mp hb with h | h
    · exact hgc _ _ h
    · exact ih _ h

theorem level1_inBounds {b : Block} (hb : b ∈ level1Blocks) : inBoundsB b := by
  unfold level1Blocks at hb
  rw [List.mem_flatMap] at hb
  obtain ⟨row, hrow, hb⟩ := hb
  rw [List.mem_range] at hrow
  rw [List.mem_map] at hb
  obtain ⟨col, hcol, rfl⟩ := hb
  rw [List.mem_range] at hcol
  have hr : (row : ℚ) ≤ 3 := by exact_mod_cast Nat.lt_succ_iff.mp hrow
  have hc : (col : ℚ) ≤ 5 := by exact_mod_cast Nat.lt_succ_iff.mp hcol
  have hr0 : (0 : ℚ) ≤ (row : ℚ) := Nat.cast_nonneg row
  have hc0 : (0 : ℚ) ≤ (col : ℚ) := Nat.cast_nonneg col
  simp only [inBoundsB, margin, CANVAS_WIDTH, maxY]
  refine ⟨?_, ?_, ?_, ?_⟩ <;> linarith

theorem level4_inBounds {b : Block} (hb : b ∈ level4Blocks) : inBoundsB b := by
  unfold level4Blocks at hb
  rw [List.mem_flatMap] at hb
  obtain ⟨row, hrow, hb⟩ := hb
  rw [List.mem_range] at hrow
  rw [List.mem_flatMap] at hb
  obtain ⟨col, hcol, hb⟩ := hb
  rw [List.mem_range] at hcol
  split at hb
  swap
  · simp at hb
  rw [List.mem_singleton] at hb
  subst hb
  have hr : (row : ℚ) ≤ 7 := by exact_mod_cast Nat.lt_succ_iff.mp hrow
  have hc : (col : ℚ) ≤ 7 := by exact_mod_cast Nat.lt_succ_iff.mp hcol
  have hr0 : (0 : ℚ) ≤ (row : ℚ) := Nat.cast_nonneg row
  have hc0 : (0 : ℚ) ≤ (col : ℚ) := Nat.cast_nonneg col
  simp only [inBoundsB, margin, CANVAS_WIDTH, maxY]
  refine ⟨?_, ?_, ?_, ?_⟩ <;> linarith

theorem level5_inBounds {b : Block} (hb : b ∈ level5Blocks) : inBoundsB b := by
  unfold level5Blocks at hb
  simp only [List.mem_append] at hb
  rcases hb with ((((h | h) | h) | h) | h)
  · rw [List.mem_map] at h
    obtain ⟨i, hi, rfl⟩ := h
    rw [List.mem_range] at hi
    have h1 : (i : ℚ) ≤ 11 := by exact_mod_cast Nat.lt_succ_iff.mp hi
    have h0 : (0 : ℚ) ≤ (i : ℚ) := Nat.cast_nonneg i
    simp only [inBoundsB, margin, CANVAS_WIDTH, maxY]
    refine ⟨?_, ?_, ?_, ?_⟩ <;> linarith
  · rw [List.mem_flatMap] at h
    obtain ⟨row, hrow, h⟩ := h
    rw [List.mem_range] at hrow
    rw [List.mem_map] at h
    obtain ⟨col, hcol, rfl⟩ := h
    rw [List.mem_range] at hcol
    have h1 : (row : ℚ) ≤ 1 := by exact_mod_cast Nat.lt_succ_iff.mp hrow
    have h2 : (col : ℚ) ≤ 1 := by exact_mod_cast Nat.lt_succ_iff.mp hcol
    have h0 : (0 : ℚ) ≤ (row : ℚ) := Nat.cast_nonneg row
    have h3 : (0 : ℚ) ≤ (col : ℚ) := Nat.cast_nonneg col
    simp only [inBoundsB, margin, CANVAS_WIDTH, maxY]
    refine ⟨?_, ?_, ?_, ?_⟩ <;> linarith
  · rw [List.mem_flatMap] at h
    obtain ⟨row, hrow, h⟩ := h
    rw [List.mem_range] at hrow
    rw [List.mem_map] at h
    obtain ⟨col, hcol, rfl⟩ := h
    rw [List.mem_range] at hcol
    have h1 : (row : ℚ) ≤ 1 := by exact_mod_cast Nat.lt_succ_iff.mp hrow
    have h2 : (col : ℚ) ≤ 1 := by exact_mod_cast Nat.lt_succ_iff.mp hcol
    have h0 : (0 : ℚ) ≤ (row : ℚ) := Nat.cast_nonneg row
    have h3 : (0 : ℚ) ≤ (col : ℚ) := Nat.cast_nonneg col
    have h4 : ((12 - 2 + col : ℕ) : ℚ) = 10 + (col : ℚ) := by push_cast; norm_num
    simp only [inBoundsB, margin, CANVAS_WIDTH, maxY]
    rw [h4]
    refine ⟨?_, ?_, ?_, ?_⟩ <;> linarith
  · rw [List.mem_map] at h
    obtain ⟨i, hi, rfl⟩ := h
    rw [List.mem_range] at hi
    have h1 : (i : ℚ) ≤ 7 := by exact_mod_cast Nat.lt_succ_iff.mp hi
    have h0 : (0 : ℚ) ≤ (i : ℚ) := Nat.cast_nonneg i
    simp only [inBoundsB, margin, CANVAS_WIDTH, maxY]
    refine ⟨?_, ?_, ?_, ?_⟩ <;> linarith
  · rw [List.mem_flatMap] at h
    obtain ⟨row, hrow, h⟩ := h
    rw [List.mem_range] at hrow
    rw [List.mem_map] at h
    obtain ⟨col, hcol, rfl⟩ := h
    rw [List.mem_range] at hcol
    have h1 : (row : ℚ) ≤ 1 := by exact_mod_cast Nat.lt_succ_iff.mp hrow
    have h2 : (col : ℚ) ≤ 3 := by exact_mod_cast Nat.lt_succ_iff.mp hcol
    have h0 : (0 : ℚ) ≤ (row : ℚ) := Nat.cast_nonneg row
    have h3 : (0 : ℚ) ≤ (col : ℚ) := Nat.cast_nonneg col
    simp only [inBoundsB, margin, CANVAS_WIDTH, maxY]
    refine ⟨?_, ?_, ?_, ?_⟩ <;> linarith

theorem pyramidRowsGo_inBounds :
    ∀ (rows : List ℕ) (rowIndex : ℕ) (startY : ℚ),
      (∀ n ∈ rows, 1 ≤ n ∧ n ≤ 7) → 50 ≤ startY →
      startY + 30 * (rows.length : ℚ) ≤ 428 →
      ∀ b ∈ pyramidRowsGo rows rowIndex startY, inBoundsB b := by
  intro rows
  induction rows with
  | nil => intro rowIndex startY _ _ _ b hb; simp [pyramidRowsGo] at hb
  | cons n rest ih =>
    intro rowIndex startY hn h50 hlen b hb
    have hlenq : ((n :: rest).length : ℚ) = (rest.length : ℚ) + 1 := by
      push_cast [List.length_cons]; ring
    rw [hlenq] at hlen
    rw [pyramidRowsGo] at hb
    rcases List.mem_append.mp hb with h | h
    · rw [List.mem_map] at h
      obtain ⟨i, hi, rfl⟩ := h
      rw [List.mem_range] at hi
      obtain ⟨hn1, hn7⟩ := hn n (List.mem_cons_self n rest)
      have hiq : (i : ℚ) + 1 ≤ (n : ℚ) := by exact_mod_cast hi
      have hi0 : (0 : ℚ) ≤ (i : ℚ) := Nat.cast_nonneg i
      have hn1q : (1 : ℚ) ≤ (n : ℚ) := by exact_mod_cast hn1
      have hn7q : (n : ℚ) ≤ 7 := by exact_mod_cast hn7
      have hrest0 : (0 : ℚ) ≤ (rest.length : ℚ) := Nat.cast_nonneg _
      simp only [inBoundsB, margin, CANVAS_WIDTH, maxY]
      refine ⟨?_, ?_, ?_, ?_⟩ <;> linarith
    · refine ih (rowIndex + 1) (startY + (22 + 8)) (fun m hm => hn m (List.mem_cons_of_mem n hm))
        (by linarith) ?_ b h
      have hrest0 : (0 : ℚ) ≤ (rest.length : ℚ) := Nat.cast_nonneg _
      linarith

theorem level3_inBounds {b : Block} (hb : b ∈ level3Blocks) : inBoundsB b := by
  unfold level3Blocks at hb
  refine pyramidRowsGo_inBounds [7, 6, 5, 4, 3, 2, 1] 0 50 (by decide) (by norm_num) ?_ b hb
  norm_num

theorem level2_inBounds {cosF sinF : ℚ → ℚ} (hc : ∀ a, |cosF a| ≤ 1)
    (hs : ∀ a, |sinF a| ≤ 1) {b : Block} (hb : b ∈ level2Blocks cosF sinF) : inBoundsB b := by
  unfold level2Blocks at hb
  rw [List.mem_map] at hb
  obtain ⟨i, _, rfl⟩ := hb
  obtain ⟨hcl, hcu⟩ := abs_le.mp (hc (((i : ℚ) / 8) * PI * 2 - PI / 2))
  obtain ⟨hsl, hsu⟩ := abs_le.mp (hs (((i : ℚ) / 8) * PI * 2 - PI / 2))
  simp only [inBoundsB, margin, CANVAS_WIDTH, maxY]
  refine ⟨?_, ?_, ?_, ?_⟩ <;> linarith

/-- C2: boundary safety.  For every `levelId`, every block returned by
`generateBlocksForLevel` lies fully inside the margin-bounded playable
sub-rectangle `x ≥ 50`, `x + width ≤ 800 - 50`, `y ≥ 50`,
`y + height ≤ 420` — including the hand-authored layouts for levels 1-5,
which have no explicit filter.  The only assumption on the opaque
`Math.cos` / `Math.sin` parameters is that their values lie in `[-1, 1]`
(needed for the circle layout of level 2; all procedural branches are
safe for arbitrary `cosF`/`sinF` because of the explicit boundary filter). -/
theorem c2_boundary_safety (cosF sinF : ℚ → ℚ)
    (hc : ∀ a, |cosF a| ≤ 1) (hs : ∀ a, |sinF a| ≤ 1) (level : ℕ) (b : Block)
    (hb : b ∈ generateBlocksForLevel cosF sinF level) :
    50 ≤ b.x ∧ b.x + b.width ≤ 800 - 50 ∧ 50 ≤ b.y ∧ b.y + b.height ≤ 420 := by
  suffices h : inBoundsB b by
    unfold inBoundsB margin CANVAS_WIDTH maxY at h
    exact_mod_cast h
  by_cases h1 : level = 1
  · subst h1; exact level1_inBounds hb
  · by_cases h2 : level = 2
    · subst h2; exact level2_inBounds hc hs hb
    · by_cases h3 : level = 3
      · subst h3; exact level3_inBounds hb
      · by_cases h4 : level = 4
        · subst h4; exact level4_inBounds hb
        · by_cases h5 : level = 5
          · subst h5; exact level5_inBounds hb
          · by_cases h6 : level = 6
            · subst h6
              have hg : generateBlocksForLevel cosF sinF 6 =
                  clusterLoop (genCluster6 cosF sinF) 12345 10 := by
                unfold generateBlocksForLevel
                norm_num
              rw [hg] at hb
              exact @mem_clusterLoop (genCluster6 cosF sinF) b
                (fun s' b' h => @mem_genCluster6 cosF sinF b' s' h) 10 12345 hb
            · by_cases h7 : 100 ≤ level
              · have hg : generateBlocksForLevel cosF sinF level =
                    clusterLoop (genCluster100 cosF sinF) level (numClusters100 level) := by
                  unfold generateBlocksForLevel
                  rw [if_neg h1, if_neg h2, if_neg h3, if_neg h4, if_neg h5, if_neg h6,
                    if_pos h7]
                rw [hg] at hb
                exact @mem_clusterLoop (genCluster100 cosF sinF) b
                  (fun s' b' h => @mem_genCluster100 cosF sinF b' s' h)
                  (numClusters100 level) level hb
              · have hg : generateBlocksForLevel cosF sinF level = [] := by
                  unfold generateBlocksForLevel
                  rw [if_neg h1, if_neg h2, if_neg h3, if_neg h4, if_neg h5, if_neg h6,
                    if_neg h7]
                rw [hg] at hb
                simp at hb

/-- Witness for C2: the first block of level 1 at bounded instantiations
of the trigonometric parameters. -/
theorem c2_boundary_safety_witness :
    (∀ a : ℚ, |zeroF a| ≤ 1) ∧
    (⟨50, 50, 60, 25, true, "#3b82f6"⟩ : Block) ∈ generateBlocksForLevel zeroF zeroF 1 ∧
    (50 ≤ (50 : ℚ) ∧ (50 : ℚ) + 60 ≤ 800 - 50 ∧ 50 ≤ (50 : ℚ) ∧ (50 : ℚ) + 25 ≤ 420) := by
  have hz : ∀ a : ℚ, |zeroF a| ≤ 1 := fun a => by simp [zeroF]
  have hmem : (⟨50, 50, 60, 25, true, "#3b82f6"⟩ : Block) ∈
      generateBlocksForLevel zeroF zeroF 1 := by
    have h : generateBlocksForLevel zeroF zeroF 1 = level1Blocks := rfl
    rw [h]
    unfold level1Blocks
    rw [List.mem_flatMap]
    refine ⟨0, List.mem_range.mpr (by norm_num), ?_⟩
    rw [List.mem_map]
    refine ⟨0, List.mem_range.mpr (by norm_num), ?_⟩
    simp only [Block.mk.injEq]
    norm_num
  exact ⟨hz, hmem, c2_boundary_safety zeroF zeroF hz hz 1 _ hmem⟩

/-! ## The per-frame game loop

The body of `gameLoop` from the source, as a pure state transformer.
Rendering, FPS counting and `requestAnimationFrame` scheduling are not
state, and the ball-launch handlers live outside the loop (they are
keyboard/mouse event handlers), so a tick's inputs are the sampled key
state, the sampled pointer x, and the opaque numeric/entropy functions:
`sinF cosF sqrtF` for `Math.sin`/`Math.cos`/`Math.sqrt` and `spawn` for
`createParticles` (whose particle velocities come from `Math.random`;
`spawn x y count color` returns the particles appended by one call). -/

/-- Held arrow keys sampled by the loop (`keysRef`). -/
structure Keys where
  left : Bool
  right : Bool
  deriving Repr, DecidableEq

/-- The session state mutated by the game loop. -/
structure GameState where
  status : Status
  score : ℕ
  lives : ℤ
  blocks : List Block
  ball : Ball ℚ
  paddle : Paddle ℚ
  particles : List Particle
  launched : Bool
  deriving Repr, DecidableEq

/-- Paddle update: arrow-key nudges of ±8 (clamped at each edge), then the
unconditional mouse override
`x = max(0, min(CANVAS_WIDTH - width, mouseX - width/2))`. -/
def updatePaddle (keys : Keys) (mouseX : ℚ) (p : Paddle ℚ) : Paddle ℚ :=
  let p1 := if keys.left then { p with x := max 0 (p.x - 8) } else p
  let p2 := if keys.right then { p1 with x := min (CANVAS_WIDTH - p1.width) (p1.x + 8) }
    else p1
  { p2 with x := max 0 (min (CANVAS_WIDTH - p2.width) (mouseX - p2.width / 2)) }

/-- Euler integration: `x += dx; y += dy`. -/
def moveBall (b : Ball ℚ) : Ball ℚ := { b with x := b.x + b.dx, y := b.y + b.dy }

/-- Wall collisions: reflect `dx` at the side walls, `dy` at the top wall,
each with a 5-particle burst.  There is no bottom wall. -/
def wallBounce (spawn : ℚ → ℚ → ℕ → String → List Particle)
    (b : Ball ℚ) (parts : List Particle) : Ball ℚ × List Particle :=
  let r1 := if b.x - b.radius ≤ 0 ∨ b.x + b.radius ≥ CANVAS_WIDTH then
      ({ b with dx := -b.dx }, parts ++ spawn b.x b.y 5 "#00d9ff")
    else (b, parts)
  if r1.1.y - r1.1.radius ≤ 0 then
    ({ r1.1 with dy := -r1.1.dy }, r1.2 ++ spawn r1.1.x r1.1.y 5 "#00d9ff")
  else r1

/-- Paddle collision: bounding-interval overlap test, then `dy = -|dy|` and
the angle recomputation from the hit position at preserved speed. -/
def paddleBounce (sinF cosF sqrtF : ℚ → ℚ) (spawn : ℚ → ℚ → ℕ → String → List Particle)
    (pad : Paddle ℚ) (b : Ball ℚ) (parts : List Particle) : Ball ℚ × List Particle :=
  if b.y + b.radius ≥ pad.y ∧ b.y - b.radius ≤ pad.y + pad.height ∧
      b.x ≥ pad.x ∧ b.x ≤ pad.x + pad.width then
    let b1 : Ball ℚ := { b with dy := -|b.dy| }
    let hitPos := (b1.x - pad.x) / pad.width
    let angle := (hitPos - 1/2) * PI / 1.5
    let speed := sqrtF (b1.dx * b1.dx + b1.dy * b1.dy)
    ({ b1 with dx := sinF angle * speed, dy := -|cosF angle * speed| },
      parts ++ spawn b1.x pad.y 8 "#7c3aed")
  else (b, parts)

/-- Bounding-box overlap between the ball (center `(bx, yb)`, radius `r`)
and a block. -/
def overlaps (bx yb r : ℚ) (blk : Block) : Prop :=
  bx + r ≥ blk.x ∧ bx - r ≤ blk.x + blk.width ∧
  yb + r ≥ blk.y ∧ yb - r ≤ blk.y + blk.height

instance (bx yb r : ℚ) (blk : Block) : Decidable (overlaps bx yb r blk) := by
  unfold overlaps; infer_instance

/-- A destructive hit: the block is alive (`if (!block.alive) return`) and
its bounding box overlaps the ball. -/
def hitP (bx yb r : ℚ) (blk : Block) : Prop := blk.alive = true ∧ overlaps bx yb r blk

instance (bx yb r : ℚ) (blk : Block) : Decidable (hitP bx yb r blk) := by
  unfold hitP; infer_instance

/-- The per-block collision loop: every alive block whose bounding box
overlaps the ball is marked dead, `dy` is inverted, the score increases
by 10, and a 15-particle burst in the block color is emitted.  No early
exit: every block is visited. -/
def processBlocks (spawn : ℚ → ℚ → ℕ → String → List Particle) (bx yb r : ℚ) :
    List Block → ℚ → ℕ → List Particle → List Block × ℚ × ℕ × List Particle
  | [], dy, score, parts => ([], dy, score, parts)
  | blk :: rest, dy, score, parts =>
    if hitP bx yb r blk then
      let res := processBlocks spawn bx yb r rest (-dy) (score + 10)
        (parts ++ spawn (blk.x + blk.width / 2) (blk.y + blk.height / 2) 15 blk.color)
      ({ blk with alive := false } :: res.1, res.2)
    else
      let res := processBlocks spawn bx yb r rest dy score parts
      (blk :: res.1, res.2)

/-- Bottom-exit check: when the ball's top edge passes below the canvas
bottom, decrement lives; at `lives - 1 ≤ 0` transition to defeat (the ball
is left as is), otherwise re-arm the ball un-launched at the paddle-slaved
position with zero velocity. -/
def outStep (pad : Paddle ℚ) (b : Ball ℚ) (lives : ℤ) (launched : Bool) :
    Ball ℚ × ℤ × Status × Bool :=
  if b.y - b.radius > CANVAS_HEIGHT then
    if lives - 1 ≤ 0 then (b, lives - 1, Status.defeat, launched)
    else ({ b with x := pad.x + pad.width / 2, y := pad.y - 10, dx := 0, dy := 0 },
      lives - 1, Status.playing, false)
  else (b, lives, Status.playing, launched)

/-- Advance every particle by its velocity, decay `life` by 0.016, and
drop particles with `life ≤ 0`. -/
def advanceParticles (ps : List Particle) : List Particle :=
  ps.filterMap fun p =>
    let p' : Particle := { p with x := p.x + p.dx, y := p.y + p.dy, life := p.life - 0.016 }
    if p'.life > 0 then some p' else none

/-- `blocks.every(block => !block.alive)`. -/
def allDead (bs : List Block) : Bool := bs.all fun b => !b.alive

/-- One tick of `gameLoop`.  A non-`playing` tick is a no-op.  Otherwise:
paddle update; if launched, integrate the ball, resolve wall, paddle and
block collisions, then the bottom-exit check; if not launched, slave the
ball to the paddle; finally advance particles and run the victory check
(which, like the last `setGameState` call of the tick, wins over a defeat
set earlier in the same tick). -/
def tick (sinF cosF sqrtF : ℚ → ℚ) (spawn : ℚ → ℚ → ℕ → String → List Particle)
    (keys : Keys) (mouseX : ℚ) (s : GameState) : GameState :=
  if s.status = Status.playing then
    let pad := updatePaddle keys mouseX s.paddle
    if s.launched then
      let b0 := moveBall s.ball
      let w := wallBounce spawn b0 s.particles
      let pb := paddleBounce sinF cosF sqrtF spawn pad w.1 w.2
      let blk := processBlocks spawn pb.1.x pb.1.y pb.1.radius s.blocks pb.1.dy s.score pb.2
      let b4 : Ball ℚ := { pb.1 with dy := blk.2.1 }
      let oob := outStep pad b4 s.lives s.launched
      { status := if allDead blk.1 then Status.victory else oob.2.2.1
        score := blk.2.2.1
        lives := oob.2.1
        blocks := blk.1
        ball := oob.1
        paddle := pad
        particles := advanceParticles blk.2.2.2
        launched := oob.2.2.2 }
    else
      { status := if allDead s.blocks then Status.victory else Status.playing
        score := s.score
        lives := s.lives
        blocks := s.blocks
        ball := { s.ball with x := pad.x + pad.width / 2, y := pad.y - 10 }
        paddle := pad
        particles := advanceParticles s.particles
        launched := s.launched }
  else s

/-- `togglePause`: flips between `playing` and `paused`, anything else is
left unchanged. -/
def pauseToggle (s : GameState) : GameState :=
  if s.status = Status.playing then { s with status := Status.paused }
  else if s.status = Status.paused then { s with status := Status.playing }
  else s

/-- The initial paddle (`paddleRef` initializer). -/
def initPaddle : Paddle ℚ := ⟨340, 560, 120, 15⟩

/-- The state at session start for a given generated block list: score 0,
3 lives, status playing, ball slaved un-launched on the paddle. -/
def initState (bs : List Block) : GameState :=
  { status := Status.playing
    score := 0
    lives := 3
    blocks := bs
    ball := ⟨initPaddle.x + initPaddle.width / 2, initPaddle.y - 10, 0, 0, 8⟩
    paddle := initPaddle
    particles := []
    launched := false }

/-- States reachable within one session (no restart): the initial state,
closed under game-loop ticks with arbitrary inputs and pause toggles. -/
inductive Reach (bs : List Block) : GameState → Prop where
  | init : Reach bs (initState bs)
  | tick (sinF cosF sqrtF : ℚ → ℚ) (spawn : ℚ → ℚ → ℕ → String → List Particle)
      (keys : Keys) (mouseX : ℚ) {s : GameState} :
      Reach bs s → Reach bs (tick sinF cosF sqrtF spawn keys mouseX s)
  | pause {s : GameState} : Reach bs s → Reach bs (pauseToggle s)

/-! ## Game-loop lemmas -/

theorem updatePaddle_eq (keys : Keys) (mouseX : ℚ) (p : Paddle ℚ) :
    updatePaddle keys mouseX p =
      { p with x := max 0 (min (CANVAS_WIDTH - p.width) (mouseX - p.width / 2)) } := by
  cases p
  unfold updatePaddle
  split_ifs <;> rfl

theorem tick_not_playing (sinF cosF sqrtF : ℚ → ℚ)
    (spawn : ℚ → ℚ → ℕ → String → List Particle) (keys : Keys) (mouseX : ℚ)
    {s : GameState} (h : ¬s.status = Status.playing) :
    tick sinF cosF sqrtF spawn keys mouseX s = s := by
  unfold tick
  rw [if_neg h]

theorem wallBounce_fst_x (spawn : ℚ → ℚ → ℕ → String → List Particle)
    (b : Ball ℚ) (parts : List Particle) : (wallBounce spawn b parts).1.x = b.x := by
  unfold wallBounce
  simp only []
  split_ifs <;> rfl

theorem wallBounce_fst_y (spawn : ℚ → ℚ → ℕ → String → List Particle)
    (b : Ball ℚ) (parts : List Particle) : (wallBounce spawn b parts).1.y = b.y := by
  unfold wallBounce
  simp only []
  split_ifs <;> rfl

theorem wallBounce_fst_radius (spawn : ℚ → ℚ → ℕ → String → List Particle)
    (b : Ball ℚ) (parts : List Particle) : (wallBounce spawn b parts).1.radius = b.radius := by
  unfold wallBounce
  simp only []
  split_ifs <;> rfl

theorem paddleBounce_fst_x (sinF cosF sqrtF : ℚ → ℚ)
    (spawn : ℚ → ℚ → ℕ → String → List Particle) (pad : Paddle ℚ)
    (b : Ball ℚ) (parts : List Particle) :
    (paddleBounce sinF cosF sqrtF spawn pad b parts).1.x = b.x := by
  unfold paddleBounce
  split_ifs <;> rfl

theorem paddleBounce_fst_y (sinF cosF sqrtF : ℚ → ℚ)
    (spawn : ℚ → ℚ → ℕ → String → List Particle) (pad : Paddle ℚ)
    (b : Ball ℚ) (parts : List Particle) :
    (paddleBounce sinF cosF sqrtF spawn pad b parts).1.y = b.y := by
  unfold paddleBounce
  split_ifs <;> rfl

theorem paddleBounce_fst_radius (sinF cosF sqrtF : ℚ → ℚ)
    (spawn : ℚ → ℚ → ℕ → String → List Particle) (pad : Paddle ℚ)
    (b : Ball ℚ) (parts : List Particle) :
    (paddleBounce sinF cosF sqrtF spawn pad b parts).1.radius = b.radius := by
  unfold paddleBounce
  split_ifs <;> rfl

theorem processBlocks_blocks (spawn : ℚ → ℚ → ℕ → String → List Particle) (bx yb r : ℚ) :
    ∀ (blocks : List Block) (dy : ℚ) (score : ℕ) (parts : List Particle),
      (processBlocks spawn bx yb r blocks dy score parts).1 =
        blocks.map fun blk =>
          if hitP bx yb r blk then { blk with alive := false } else blk := by
  intro blocks
  induction blocks with
  | nil => intro dy score parts; rfl
  | cons blk rest ih =>
    intro dy score parts
    rw [processBlocks, List.map_cons]
    split_ifs with h <;> · simp only []; rw [ih]

theorem processBlocks_score (spawn : ℚ → ℚ → ℕ → String → List Particle) (bx yb r : ℚ) :
    ∀ (blocks : List Block) (dy : ℚ) (score : ℕ) (parts : List Particle),
      (processBlocks spawn bx yb r blocks dy score parts).2.2.1 =
        score + 10 * (blocks.filter fun blk => decide (hitP bx yb r blk)).length := by
  intro blocks
  induction blocks with
  | nil => intro dy score parts; simp [processBlocks]
  | cons blk rest ih =>
    intro dy score parts
    rw [processBlocks, List.filter_cons]
    by_cases h : hitP bx yb r blk
    · rw [if_pos h, if_pos (by simpa using h)]
      simp only []
      rw [ih, List.length_cons]
      omega
    · rw [if_neg h, if_neg (by simpa using h)]
      simp only []
      rw [ih]

theorem outStep_status_ne_victory (pad : Paddle ℚ) (b : Ball ℚ) (lives : ℤ)
    (launched : Bool) : (outStep pad b lives launched).2.2.1 ≠ Status.victory := by
  unfold outStep
  split_ifs <;> simp

theorem outStep_status_ne_paused (pad : Paddle ℚ) (b : Ball ℚ) (lives : ℤ)
    (launched : Bool) : (outStep pad b lives launched).2.2.1 ≠ Status.paused := by
  unfold outStep
  split_ifs <;> simp

/-- C9: pointer input wins over key-hold input.  On every playing tick the
paddle ends the update at `clamp(mouseX - width/2, 0, CANVAS_WIDTH - width)`
regardless of the arrow keys, and two ticks differing only in key state
produce identical states. -/
theorem c9_pointer_overrides_keys (sinF cosF sqrtF : ℚ → ℚ)
    (spawn : ℚ → ℚ → ℕ → String → List Particle) (k1 k2 : Keys) (mouseX : ℚ)
    (s : GameState) (hp : s.status = Status.playing) :
    (tick sinF cosF sqrtF spawn k1 mouseX s).paddle.x =
      max 0 (min (CANVAS_WIDTH - s.paddle.width) (mouseX - s.paddle.width / 2)) ∧
    tick sinF cosF sqrtF spawn k1 mouseX s = tick sinF cosF sqrtF spawn k2 mouseX s := by
  constructor
  · unfold tick
    rw [if_pos hp]
    simp only [updatePaddle_eq]
    split_ifs <;> rfl
  · simp only [tick, hp, updatePaddle_eq]

/-- Witness for C9 at a concrete playing state with opposite key states. -/
theorem c9_pointer_overrides_keys_witness :
    (initState [⟨50, 50, 60, 25, true, "#3b82f6"⟩]).status = Status.playing ∧
    ((tick zeroF zeroF zeroF (fun _ _ _ _ => []) ⟨true, false⟩ 400
        (initState [⟨50, 50, 60, 25, true, "#3b82f6"⟩])).paddle.x =
      max 0 (min (CANVAS_WIDTH - (initState [⟨50, 50, 60, 25, true, "#3b82f6"⟩]).paddle.width)
        (400 - (initState [⟨50, 50, 60, 25, true, "#3b82f6"⟩]).paddle.width / 2)) ∧
     tick zeroF zeroF zeroF (fun _ _ _ _ => []) ⟨true, false⟩ 400
        (initState [⟨50, 50, 60, 25, true, "#3b82f6"⟩]) =
      tick zeroF zeroF zeroF (fun _ _ _ _ => []) ⟨false, true⟩ 400
        (initState [⟨50, 50, 60, 25, true, "#3b82f6"⟩])) :=
  ⟨rfl, c9_pointer_overrides_keys zeroF zeroF zeroF (fun _ _ _ _ => [])
    ⟨true, false⟩ ⟨false, true⟩ 400 (initState [⟨50, 50, 60, 25, true, "#3b82f6"⟩]) rfl⟩

/-- C10: each destructive block collision adds exactly 10 points.  On a
playing, launched tick, with the ball moved to
`(x + dx, y + dy)`, exactly the alive blocks whose boxes overlap the moved
ball are marked dead (all of them — the loop has no early exit) and the
score increases by `10 * k` where `k` is the number of such blocks.  (The
repository README promises 100 points per block; the code awards 10.) -/
theorem c10_score_per_block (sinF cosF sqrtF : ℚ → ℚ)
    (spawn : ℚ → ℚ → ℕ → String → List Particle) (keys : Keys) (mouseX : ℚ)
    (s : GameState) (hp : s.status = Status.playing) (hl : s.launched = true) :
    (tick sinF cosF sqrtF spawn keys mouseX s).blocks =
      (s.blocks.map fun blk =>
        if hitP (s.ball.x + s.ball.dx) (s.ball.y + s.ball.dy) s.ball.radius blk then
          { blk with alive := false }
        else blk) ∧
    (tick sinF cosF sqrtF spawn keys mouseX s).score =
      s.score + 10 * (s.blocks.filter fun blk =>
        decide (hitP (s.ball.x + s.ball.dx) (s.ball.y + s.ball.dy) s.ball.radius blk)).length := by
  constructor <;>
  · unfold tick
    rw [if_pos hp, if_pos hl]
    simp only [processBlocks_blocks, processBlocks_score, paddleBounce_fst_x,
      paddleBounce_fst_y, paddleBounce_fst_radius, wallBounce_fst_x, wallBounce_fst_y,
      wallBounce_fst_radius, moveBall]
